/-
Shallow embedding of the Argo CD application controller's sync engine
(`controller/sync.go`), together with its auto-sync policy and two-way diff
(whose implementations are known only through their tests and the design
document), and proofs of the specified properties.
-/
import Mathlib

namespace ArgoCD

/-- Resource sync outcome status, from `appv1.ResourceDetails*` constants
(`Synced`, `SyncedAndPruned`, `SyncFailed`, `PruningRequired`). -/
inductive ResourceStatus where
  | Synced
  | SyncedAndPruned
  | SyncFailed
  | PruningRequired
deriving Repr, DecidableEq

/-- Modelled from the spec: `ResourceDetails.Status.Successful()` lives in the
`v1alpha1` types package, which is not among the embedded sources; per the
data model (section 3) the successful outcomes are `Synced` and
`SyncedAndPruned`. -/
def ResourceStatus.Successful : ResourceStatus → Bool
  | .Synced => true
  | .SyncedAndPruned => true
  | _ => false

/-- Per-object outcome entry of `SyncResult.Resources`
(`appv1.ResourceDetails`): (name, kind, namespace, message, status). -/
structure ResourceDetails where
  name : String
  kind : String
  ns : String
  message : String
  status : ResourceStatus
deriving Repr, DecidableEq

/-- A Kubernetes object as read by `controller/sync.go`: exactly the fields of
`unstructured.Unstructured` that the sync engine inspects. `crdGroup` and
`crdKind` model the nested strings `spec.group` and `spec.names.kind`
(absent when the lookup fails, as in `hasCRDOfGroupKind`). `isCRD` models
the `kube.IsCRD` predicate and `hook` the hook-annotation test `isHook`;
both helpers live outside the embedded sources and are therefore carried
as fields of the object. -/
structure KubeObject where
  apiGroup : String
  kind : String
  name : String
  ns : String
  isCRD : Bool
  crdGroup : Option String
  crdKind : Option String
  hook : Bool
deriving Repr, DecidableEq

/-- `syncTask` from `controller/sync.go`: live and target object, at least one
non-nil; `targetObj = none` means prune, `liveObj = none` means create. -/
structure syncTask where
  liveObj : Option KubeObject
  targetObj : Option KubeObject
deriving Repr, DecidableEq

/-- `resourceOrder`: the canonical order of Kubernetes resources within a
manifest (`controller/sync.go`). -/
def resourceOrder : List String :=
  ["Namespace",
   "ResourceQuota",
   "LimitRange",
   "PodSecurityPolicy",
   "Secret",
   "ConfigMap",
   "StorageClass",
   "PersistentVolume",
   "PersistentVolumeClaim",
   "ServiceAccount",
   "CustomResourceDefinition",
   "ClusterRole",
   "ClusterRoleBinding",
   "Role",
   "RoleBinding",
   "Service",
   "DaemonSet",
   "Pod",
   "ReplicationController",
   "ReplicaSet",
   "Deployment",
   "StatefulSet",
   "Job",
   "CronJob",
   "Ingress",
   "APIService"]

/-- Lexicographic comparison of character lists, embedding Go's byte-wise
string `<` (UTF-8 byte order coincides with scalar-value order). -/
def charListLt : List Char → List Char → Bool
  | _, [] => false
  | [], _ :: _ => true
  | a :: as, b :: bs => if a < b then true else if b < a then false else charListLt as bs

/-- Go's string `<`. -/
def strLt (a b : String) : Bool := charListLt a.data b.data

/-- Go map lookup `k.ordering[kind]` with its ok flag, for the map built by
`newKindSorter` (kind to its index in the order list). A missing kind
yields Go's zero value `0` together with `ok = false`. -/
def orderingFind (s : List String) (k : String) : Nat × Bool :=
  match s.findIdx? (fun x => x == k) with
  | some i => (i, true)
  | none => (0, false)

/-- `kindSorter.Less` from `controller/sync.go`: nil targets last; same
ordering value sub-sorts by name (or by kind for two distinct unknown
kinds); otherwise unknown kinds last, then by ordering value. -/
def kindLess (x y : syncTask) : Bool :=
  match x.targetObj with
  | none => false
  | some a =>
    match y.targetObj with
    | none => true
    | some b =>
      let fa := orderingFind resourceOrder a.kind
      let sb := orderingFind resourceOrder b.kind
      if fa.1 = sb.1 then
        if !fa.2 && !sb.2 && a.kind ≠ b.kind then strLt a.kind b.kind
        else strLt a.name b.name
      else if !fa.2 then false
      else if !sb.2 then true
      else decide (fa.1 < sb.1)

/-- One backward-bubbling pass of Go's `insertionSort`, acting on the
reversed already-sorted prefix: the new element `x` moves past every
element it is `less` than and stops at the first one it is not. -/
def insRev {α : Type} (less : α → α → Bool) (x : α) : List α → List α
  | [] => [x]
  | e :: rest => if less x e then e :: insRev less x rest else x :: e :: rest

/-- Go's `sort.insertionSort` on a list, carrying the sorted prefix in
reversed form. -/
def insertionSortGo {α : Type} (less : α → α → Bool) : List α → List α → List α
  | racc, [] => racc.reverse
  | racc, x :: rest => insertionSortGo less (insRev less x racc) rest

/-- `sort.Sort(newKindSorter(syncTasks, resourceOrder))` as performed by
`generateSyncTasks`. Go's `sort.Sort` runs quicksort, which for slices of
fewer than 7 elements is exactly `insertionSort` (below 13 elements it is
a gap-6 Shell pass, a no-op under 7 elements, followed by insertion sort);
the concrete task lists evaluated here are inside that range. -/
def sortTasks (ts : List syncTask) : List syncTask := insertionSortGo kindLess [] ts

/-- A sync task whose target object has the given kind and name. -/
def mkTask (kind name : String) : syncTask :=
  ⟨none, some ⟨"", kind, name, "", false, none, none, false⟩⟩

/-- `setResourceDetails` from `controller/sync.go`: scan
`SyncResult.Resources` for an entry with the same kind and name, update it
in place, else append. -/
def setResourceDetails (rs : List ResourceDetails) (details : ResourceDetails) :
    List ResourceDetails :=
  match rs with
  | [] => [details]
  | r :: rest =>
    if r.kind = details.kind ∧ r.name = details.name then details :: rest
    else r :: setResourceDetails rest details

/-- Uniqueness of `SyncResult.Resources` entries by (kind, name). -/
def uniqueByKindName : List ResourceDetails → Bool
  | [] => true
  | r :: rest =>
    rest.all (fun x => !(x.kind == r.kind && x.name == r.name)) && uniqueByKindName rest

/-- `pruneObject` from `controller/sync.go`. `deleteErr` is the outcome of
the `kubectl.DeleteResource` call (`none` = success). The second component
records whether that call was made, the code's only deletion
side effect. -/
def pruneObject (deleteErr : Option String) (liveObj : KubeObject)
    (prune dryRun : Bool) : ResourceDetails × Bool :=
  if prune then
    if dryRun then
      (⟨liveObj.name, liveObj.kind, liveObj.ns, "pruned (dry run)", .SyncedAndPruned⟩, false)
    else
      match deleteErr with
      | some e => (⟨liveObj.name, liveObj.kind, liveObj.ns, e, .SyncFailed⟩, true)
      | none => (⟨liveObj.name, liveObj.kind, liveObj.ns, "pruned", .SyncedAndPruned⟩, true)
  else
    (⟨liveObj.name, liveObj.kind, liveObj.ns, "ignored (requires pruning)",
      .PruningRequired⟩, false)

/-- Modelled from the spec: the `modified` flag of `TwoWayDiff(config, live)`.
The diff package implementation is not among the embedded sources (only its
tests are). Per section 4.2, the two-way diff reports structural inequality
of the normalized desired and live objects, with the special case that an
absent desired object is never a difference while a present desired object
with an absent live object always is. `norm` stands for the Normalizer. -/
def twoWayDiffModified (norm : KubeObject → KubeObject) :
    Option KubeObject → Option KubeObject → Bool
  | none, _ => false
  | some _, none => true
  | some d, some l => decide (norm d ≠ norm l)

/-- `appv1.OperationPhase`. -/
inductive OperationPhase where
  | Running
  | Terminating
  | Failed
  | Error
  | Succeeded
deriving Repr, DecidableEq

/-- `appv1.ComponentParameter` as used by the tests: a (name, value) pair. -/
structure ComponentParameter where
  name : String
  value : String
deriving Repr, DecidableEq

/-- `appv1.SyncOperation`: the sync request inside an Operation. -/
structure SyncOperation where
  revision : String
  prune : Bool
  dryRun : Bool
  parameterOverrides : List ComponentParameter
deriving Repr, DecidableEq

/-- A hook status entry of `SyncResult.Hooks`; only its type matters to the
phase-progress predicates. -/
structure HookStatus where
  hookType : String
deriving Repr, DecidableEq

/-- `appv1.SyncOperationResult`: resolved revision, per-resource details and
per-hook statuses. -/
structure SyncOperationResult where
  revision : String
  resources : List ResourceDetails
  hooks : List HookStatus
deriving Repr, DecidableEq

/-- `appv1.Operation` (currently only a sync request). -/
structure Operation where
  sync : Option SyncOperation
deriving Repr, DecidableEq

/-- `appv1.OperationState`: the mutable record of an in-flight or most-recent
sync operation. -/
structure OperationState where
  operation : Operation
  phase : OperationPhase
  message : String
  syncResult : Option SyncOperationResult
deriving Repr, DecidableEq

/-- The outcome of a successful `CompareAppState` call as consumed by
`SyncAppState`: the concrete revision from `manifestInfo.Revision` and the
returned conditions as (IsError, message) pairs. -/
structure CompareOutput where
  revision : String
  conditions : List (Bool × String)

/-- The collaborators of `SyncAppState`. `compare` stands for
`CompareAppState` (comparator plus manifest service, not among the embedded
sources; per spec section 4.3 it resolves the given revision to a concrete
commit identifier returned in `manifestInfo.Revision`, or fails).
`restInitErr` collapses the cluster-client and project initialization of
lines 101 to 127 of `controller/sync.go` (the first failure message, if
any). `runOperation` stands for `syncCtx.sync()` / `syncCtx.terminate()`
and the history persistence (lines 147 to 159): it reads and updates
phase, message, resources and hooks. Modelled from the spec: the parts of
the execution that are not among the embedded sources (`doHookSync`,
`terminate`, `persistDeploymentInfo`) never write `SyncResult.Revision`
(the engine "never re-resolves for this operation"), as is the case for
every line of `controller/sync.go` after line 99; the model therefore pins
the revision structurally across `runOperation`. -/
structure StateEnv where
  compare : String → List ComponentParameter → Except String CompareOutput
  restInitErr : Option String
  runOperation : OperationPhase → String → List ResourceDetails → List HookStatus →
    OperationPhase × String × List ResourceDetails × List HookStatus

/-- `SyncAppState` from `controller/sync.go` (lines 44 to 160). The second
component of the result is the revision passed to `CompareAppState`
(`none` when no comparison happened). -/
def syncAppState (env : StateEnv) (state : OperationState) :
    OperationState × Option String :=
  match state.operation.sync with
  | none =>
    ({ state with
        phase := .Failed
        message := "Invalid operation request: no operation specified" }, none)
  | some syncOp =>
    let sr := state.syncResult.getD ⟨"", [], []⟩
    let revision := if sr.revision = "" then syncOp.revision else sr.revision
    match env.compare revision syncOp.parameterOverrides with
    | .error e =>
      ({ state with syncResult := some sr, phase := .Error, message := e }, some revision)
    | .ok out =>
      let errConditions := out.conditions.filter (fun c => c.1)
      if errConditions.isEmpty then
        let sr := { sr with revision := out.revision }
        match env.restInitErr with
        | some e =>
          ({ state with syncResult := some sr, phase := .Error, message := e }, some revision)
        | none =>
          let r := env.runOperation state.phase state.message sr.resources sr.hooks
          ({ state with
              syncResult := some { sr with resources := r.2.2.1, hooks := r.2.2.2 }
              phase := r.1
              message := r.2.1 }, some revision)
      else
        ({ state with
            syncResult := some sr
            phase := .Error
            message := String.intercalate ";" (errConditions.map (fun c => c.2)) },
         some revision)

/-- `appv1.ComparisonStatus`. -/
inductive ComparisonStatus where
  | Synced
  | OutOfSync
  | Unknown
deriving Repr, DecidableEq

/-- `appv1.ComparisonResult`, restricted to the fields `autoSync` reads. -/
structure ComparisonResult where
  status : ComparisonStatus
  revision : String
deriving Repr, DecidableEq

/-- An Application as read by the auto-sync policy: whether
`spec.syncPolicy.automated` is present, the current
`spec.source.componentParameterOverrides`, and `status.operationState`. -/
structure Application where
  automated : Bool
  specOverrides : List ComponentParameter
  operationState : Option OperationState
deriving Repr, DecidableEq

/-- Set equality of parameter-override lists on (name, value) pairs,
order-insensitive. -/
def sameOverrides (a b : List ComponentParameter) : Bool :=
  a.all (fun p => b.contains p) && b.all (fun p => a.contains p)

/-- Modelled from the spec: the auto-sync policy (`autoSync` lives in
`controller/appcontroller.go`, which is not among the embedded sources;
only its tests are). Decision table of section 4.5: skip without a
condition when automation is off, when the comparison is Synced, or when
the most recent attempt to the same (revision, overrides) succeeded; skip
with a degraded condition when that attempt failed; otherwise enqueue a
new sync operation. The result is the returned condition and the operation
written to the Application (`none` = no operation enqueued). -/
def autoSync (app : Application) (compRes : ComparisonResult) :
    Option String × Option SyncOperation :=
  if !app.automated then (none, none)
  else if compRes.status = .Synced then (none, none)
  else
    let newOp : SyncOperation := ⟨compRes.revision, false, false, app.specOverrides⟩
    match app.operationState with
    | none => (none, some newOp)
    | some os =>
      match os.syncResult with
      | none => (none, some newOp)
      | some sr =>
        let attempted := (os.operation.sync.map (fun s => s.parameterOverrides)).getD []
        if sr.revision == compRes.revision && sameOverrides attempted app.specOverrides then
          if os.phase = .Failed then
            (some ("previous sync to " ++ sr.revision ++ " failed"), none)
          else (none, none)
        else (none, some newOp)

/-- A discovery lookup failure; `notFound` models `apierr.IsNotFound(err)`
and `msg` the error message recorded on the tasks. -/
structure DiscoError where
  notFound : Bool
  msg : String

/-- The collaborators of the apply path: `serverResource` models
`kube.ServerResourceForGroupVersionKind` (API group and kind to the
namespaced flag, or an error), `isPermitted` models
`proj.IsResourcePermitted`, `applyResult` models `kubectl.ApplyResource`
(object, dryRun, force to a message or an error) and `deleteResult`
models `kubectl.DeleteResource` (`none` = success). -/
structure ApplyEnv where
  serverResource : String → String → Except DiscoError Bool
  isPermitted : String → String → Bool → Bool
  applyResult : KubeObject → Bool → Bool → Except String String
  deleteResult : KubeObject → Option String

/-- The parts of `syncContext` the apply path reads: the destination
namespace, `syncOp.Prune` and the project name. -/
structure SyncSettings where
  ns : String
  prune : Bool
  projName : String

/-- `applyObject` from `controller/sync.go`: a `kubectl apply` of one
resource, recorded as `Synced` or `SyncFailed`. -/
def applyObject (env : ApplyEnv) (ctx : SyncSettings) (targetObj : KubeObject)
    (dryRun force : Bool) : ResourceDetails :=
  match env.applyResult targetObj dryRun force with
  | .error e => ⟨targetObj.name, targetObj.kind, ctx.ns, e, .SyncFailed⟩
  | .ok m => ⟨targetObj.name, targetObj.kind, ctx.ns, m, .Synced⟩

/-- `hasCRDOfGroupKind` from `controller/sync.go`, over the target objects of
the given create tasks: some CRD in the set has `spec.group` and
`spec.names.kind` equal to the given pair (a failed nested-string lookup,
`none` here, is skipped). -/
def hasCRDOfGroupKind (tasks : List KubeObject) (group kind : String) : Bool :=
  tasks.any (fun o => o.isCRD && o.crdGroup == some group && o.crdKind == some kind)

/-- The `SyncFailed` entry recorded for a task of a group whose discovery or
permission check fails. -/
def failDetails (ns msg : String) (t : KubeObject) : ResourceDetails :=
  ⟨t.name, t.kind, ns, msg, .SyncFailed⟩

/-- The running state of `doApplySync`: the `SyncResult.Resources` list and
the `syncSuccessful` flag. -/
abbrev RDState := List ResourceDetails × Bool

/-- The per-task recording step shared by the prune wave and the apply
groups: clear `syncSuccessful` on an unsuccessful outcome, and write the
details when `update` is set or the outcome was unsuccessful. -/
def recordResult (update : Bool) (st : RDState) (rd : ResourceDetails) : RDState :=
  ((if update || !rd.status.Successful then setResourceDetails st.1 rd else st.1),
   st.2 && rd.status.Successful)

/-- `processCreateTasks` from `doApplySync`: resolve the group's kind against
discovery (skipping the group when the kind is not found during a dry-run
but a CRD in the desired set defines it), enforce project policy, then
apply every non-hook task of the group. -/
def processCreateTasks (env : ApplyEnv) (ctx : SyncSettings)
    (allCreate : List KubeObject) (dryRun force update : Bool)
    (gp : List KubeObject) (gvkGroup gvkKind : String) (st : RDState) : RDState :=
  match env.serverResource gvkGroup gvkKind with
  | .error e =>
    if dryRun && e.notFound && hasCRDOfGroupKind allCreate gvkGroup gvkKind then st
    else
      (gp.foldl (fun rs t => setResourceDetails rs (failDetails ctx.ns e.msg t)) st.1, false)
  | .ok namespaced =>
    if !(env.isPermitted gvkGroup gvkKind namespaced) then
      (gp.foldl (fun rs t => setResourceDetails rs
        (failDetails ctx.ns ("Resource " ++ gvkGroup ++ ":" ++ gvkKind ++
          " is not permitted in project " ++ ctx.projName ++ ".") t)) st.1, false)
    else
      gp.foldl (fun acc t =>
        if t.hook then acc
        else recordResult update acc (applyObject env ctx t dryRun force)) st

/-- The grouping loop at the end of `doApplySync`: `gp` is the pending group
of adjacent tasks of one kind; a task of a different kind flushes the
pending group through `processCreateTasks`, with the GVK of the group's
first task. -/
def applyLoop (env : ApplyEnv) (ctx : SyncSettings) (allCreate : List KubeObject)
    (dryRun force update : Bool) (gp : List KubeObject) (rest : List KubeObject)
    (st : RDState) : RDState :=
  match rest with
  | [] =>
    match gp with
    | [] => st
    | g0 :: _ =>
      processCreateTasks env ctx allCreate dryRun force update gp g0.apiGroup g0.kind st
  | t :: rest' =>
    match gp with
    | [] => applyLoop env ctx allCreate dryRun force update [t] rest' st
    | g0 :: _ =>
      if g0.kind ≠ t.kind then
        applyLoop env ctx allCreate dryRun force update [t] rest'
          (processCreateTasks env ctx allCreate dryRun force update gp g0.apiGroup g0.kind st)
      else
        applyLoop env ctx allCreate dryRun force update (gp ++ [t]) rest' st

/-- `doApplySync` from `controller/sync.go`: split the tasks into prune tasks
(nil target) and create tasks, run the prune wave, then process the create
tasks in groups of adjacent equal kind. The goroutine fan-out inside the
prune wave and inside each group is modelled sequentially: every task's
outcome is folded into the shared result through `setResourceDetails`
before the wave or group returns, which is the guarantee the concurrent
code provides (spec section 5). A degenerate task with two nil objects
(which the Go code would dereference) is dropped. -/
def doApplySync (env : ApplyEnv) (ctx : SyncSettings) (tasks : List syncTask)
    (dryRun force update : Bool) (res0 : List ResourceDetails) : RDState :=
  let pruneObjs := tasks.filterMap (fun t =>
    match t.targetObj with
    | none => t.liveObj
    | some _ => none)
  let createObjs := tasks.filterMap (fun t => t.targetObj)
  let st1 := pruneObjs.foldl (fun acc o =>
    recordResult update acc (pruneObject (env.deleteResult o) o ctx.prune dryRun).1)
    (res0, true)
  applyLoop env ctx createObjs dryRun force update [] createObjs st1

/-- `SyncResult.Resources` contains a `SyncFailed` entry for the given kind
and name. -/
def hasFailedEntry (rs : List ResourceDetails) (kind name : String) : Prop :=
  ∃ rd ∈ rs, rd.kind = kind ∧ rd.name = name ∧ rd.status = .SyncFailed

theorem mem_setResourceDetails {x : ResourceDetails} {rs : List ResourceDetails}
    {d : ResourceDetails} (h : x ∈ setResourceDetails rs d) : x = d ∨ x ∈ rs := by
  induction rs with
  | nil =>
    simp [setResourceDetails] at h
    exact Or.inl h
  | cons r rest ih =>
    simp only [setResourceDetails] at h
    split at h
    · rcases List.mem_cons.mp h with h1 | h1
      · exact Or.inl h1
      · exact Or.inr (List.mem_cons.mpr (Or.inr h1))
    · rcases List.mem_cons.mp h with h1 | h1
      · exact Or.inr (List.mem_cons.mpr (Or.inl h1))
      · rcases ih h1 with h2 | h2
        · exact Or.inl h2
        · exact Or.inr (List.mem_cons.mpr (Or.inr h2))

/-- C7: `setResourceDetails` preserves uniqueness by (kind, name) of the
`SyncResult.Resources` list: an existing entry with the same kind and name
is updated in place, otherwise the new entry is appended. -/
theorem setResourceDetails_unique (rs : List ResourceDetails) (d : ResourceDetails)
    (h : uniqueByKindName rs = true) :
    uniqueByKindName (setResourceDetails rs d) = true := by
  induction rs with
  | nil => simp [setResourceDetails, uniqueByKindName]
  | cons r rest ih =>
    simp only [uniqueByKindName, Bool.and_eq_true, List.all_eq_true] at h
    obtain ⟨hall, hrest⟩ := h
    simp only [setResourceDetails]
    split
    · next hkey =>
      simp only [uniqueByKindName, Bool.and_eq_true, List.all_eq_true]
      refine ⟨fun x hx => ?_, hrest⟩
      have := hall x hx
      simp only [Bool.not_eq_true', Bool.and_eq_false_iff, beq_eq_false_iff_ne] at this ⊢
      rcases this with h1 | h1
      · exact Or.inl (by rw [← hkey.1]; exact h1)
      · exact Or.inr (by rw [← hkey.2]; exact h1)
    · next hkey =>
      simp only [uniqueByKindName, Bool.and_eq_true, List.all_eq_true]
      refine ⟨fun x hx => ?_, ih hrest⟩
      rcases mem_setResourceDetails hx with rfl | hx'
      · simp only [Bool.not_eq_true', Bool.and_eq_false_iff, beq_eq_false_iff_ne]
        by_cases hk : x.kind = r.kind
        · exact Or.inr (fun hn => hkey ⟨hk.symm, hn.symm⟩)
        · exact Or.inl hk
      · exact hall x hx'

theorem setResourceDetails_unique_w :
    uniqueByKindName [⟨"a", "Pod", "d", "", .Synced⟩, ⟨"b", "Pod", "d", "", .Synced⟩] = true ∧
    uniqueByKindName (setResourceDetails
      [⟨"a", "Pod", "d", "", .Synced⟩, ⟨"b", "Pod", "d", "", .Synced⟩]
      ⟨"b", "Pod", "d", "ok", .SyncFailed⟩) = true :=
  ⟨by decide, setResourceDetails_unique _ _ (by decide)⟩

/-- C2: the claim that a task of unknown kind sorts after every task of known
kind fails on the code. `newKindSorter` builds a Go map from kind to index,
and looking up an unknown kind returns the zero value `0`, which collides
with the index of `"Namespace"`; `kindSorter.Less` then compares the two
tasks by object name. Sorting the list [Namespace "b", Foo "a"] therefore
actively moves the unknown-kind task Foo "a" in front of the known-kind
task Namespace "b", despite the comment `unknown kind is last`. -/
theorem unknown_kind_sorts_before_namespace :
    sortTasks [mkTask "Namespace" "b", mkTask "Foo" "a"]
      = [mkTask "Foo" "a", mkTask "Namespace" "b"]
    ∧ "Foo" ∉ resourceOrder ∧ "Namespace" ∈ resourceOrder :=
  ⟨by decide, by decide, by decide⟩

/-- C3: the claim that known kinds always appear in canonical order after
sorting (in particular Namespace before Deployment) fails on the code. In
the list [Deployment "a", Foo "b", Namespace "c"] the unknown kind Foo
collides with Namespace's ordering index `0` and is compared with it by
name, so the insertion sort run by `sort.Sort` never moves Namespace "c"
past Foo "b", and the sorted output keeps Deployment "a" before
Namespace "c". -/
theorem deployment_stays_before_namespace :
    sortTasks [mkTask "Deployment" "a", mkTask "Foo" "b", mkTask "Namespace" "c"]
      = [mkTask "Deployment" "a", mkTask "Foo" "b", mkTask "Namespace" "c"]
    ∧ "Deployment" ∈ resourceOrder ∧ "Namespace" ∈ resourceOrder
    ∧ "Foo" ∉ resourceOrder :=
  ⟨by decide, by decide, by decide, by decide⟩

/-- C4: prune semantics of `pruneObject`: the deletion call is made iff
`syncOp.Prune` is true and `dryRun` is false; with prune and dry-run both
set, the entry records `SyncedAndPruned` with the dry-run message and no
deletion; with prune unset it records `PruningRequired` and no
deletion. -/
theorem pruneObject_semantics (deleteErr : Option String) (obj : KubeObject)
    (prune dryRun : Bool) :
    ((pruneObject deleteErr obj prune dryRun).2 = (prune && !dryRun))
    ∧ (prune = true → dryRun = true →
        (pruneObject deleteErr obj prune dryRun).1.status = .SyncedAndPruned
        ∧ (pruneObject deleteErr obj prune dryRun).1.message = "pruned (dry run)"
        ∧ (pruneObject deleteErr obj prune dryRun).2 = false)
    ∧ (prune = false →
        (pruneObject deleteErr obj prune dryRun).1.status = .PruningRequired
        ∧ (pruneObject deleteErr obj prune dryRun).2 = false) := by
  cases prune <;> cases dryRun <;> cases deleteErr <;> simp [pruneObject]

theorem pruneObject_semantics_w :
    (pruneObject none ⟨"", "Pod", "p", "d", false, none, none, false⟩ true true).1.status
      = .SyncedAndPruned
    ∧ (pruneObject none ⟨"", "Pod", "p", "d", false, none, none, false⟩ true true).1.message
      = "pruned (dry run)"
    ∧ (pruneObject none ⟨"", "Pod", "p", "d", false, none, none, false⟩ true true).2 = false :=
  (pruneObject_semantics none ⟨"", "Pod", "p", "d", false, none, none, false⟩ true true).2.1
    rfl rfl

/-- C6: two-way diff asymmetry on absent sides: an absent desired object with
a present live object is never a difference, while a present desired
object with an absent live object always is, for every normalizer. -/
theorem twoWayDiff_nil_asymmetry (norm : KubeObject → KubeObject) (x : KubeObject) :
    twoWayDiffModified norm none (some x) = false
    ∧ twoWayDiffModified norm (some x) none = true :=
  ⟨rfl, rfl⟩

theorem twoWayDiff_nil_asymmetry_w :
    twoWayDiffModified id none
        (some ⟨"apps", "Deployment", "demo", "default", false, none, none, false⟩) = false
    ∧ twoWayDiffModified id
        (some ⟨"apps", "Deployment", "demo", "default", false, none, none, false⟩)
        none = true :=
  twoWayDiff_nil_asymmetry id
    ⟨"apps", "Deployment", "demo", "default", false, none, none, false⟩

/-- C5: auto-sync no-thrash: when the most recent SyncResult carries the same
revision and set-equal parameter overrides as the current comparison, no
new sync operation is enqueued regardless of the previous outcome; and
when the previous attempt failed (with automation on and the comparison
not Synced), a non-nil degraded condition is returned while the operation
stays nil. -/
theorem autoSync_no_thrash (app : Application) (compRes : ComparisonResult)
    (os : OperationState) (sr : SyncOperationResult)
    (hos : app.operationState = some os)
    (hsr : os.syncResult = some sr)
    (hrev : sr.revision = compRes.revision)
    (hov : sameOverrides ((os.operation.sync.map (fun s => s.parameterOverrides)).getD [])
      app.specOverrides = true) :
    (autoSync app compRes).2 = none
    ∧ (app.automated = true → compRes.status ≠ .Synced → os.phase = .Failed →
        (autoSync app compRes).1 ≠ none) := by
  have hbeq : (sr.revision == compRes.revision) = true := by
    simp [hrev]
  constructor
  · unfold autoSync
    cases hauto : app.automated with
    | false => simp
    | true =>
      simp only [Bool.not_true, Bool.false_eq_true, if_false]
      by_cases hst : compRes.status = .Synced
      · simp [hst]
      · simp only [if_neg hst, hos, hsr, hbeq, hov, Bool.and_self, if_true]
        by_cases hph : os.phase = .Failed <;> simp [hph]
  · intro hauto hst hph
    unfold autoSync
    simp [hauto, hst, hos, hsr, hbeq, hov, hph]

theorem autoSync_no_thrash_w :
    (autoSync
      ⟨true, [⟨"a", "1"⟩],
        some ⟨⟨some ⟨"", false, false, [⟨"a", "1"⟩]⟩⟩, .Failed, "",
          some ⟨"aaaa", [], []⟩⟩⟩
      ⟨.OutOfSync, "aaaa"⟩).2 = none
    ∧ (autoSync
      ⟨true, [⟨"a", "1"⟩],
        some ⟨⟨some ⟨"", false, false, [⟨"a", "1"⟩]⟩⟩, .Failed, "",
          some ⟨"aaaa", [], []⟩⟩⟩
      ⟨.OutOfSync, "aaaa"⟩).1 ≠ none :=
  ⟨(autoSync_no_thrash _ _ _ _ rfl rfl rfl (by decide)).1,
   (autoSync_no_thrash _ _
      ⟨⟨some ⟨"", false, false, [⟨"a", "1"⟩]⟩⟩, .Failed, "", some ⟨"aaaa", [], []⟩⟩
      ⟨"aaaa", [], []⟩ rfl rfl rfl (by decide)).2 rfl (by decide) rfl⟩

/-- C10: an operation without a sync request immediately fails with the
fixed message; the state is otherwise untouched (in particular no
SyncResult is created) and no comparison is invoked. -/
theorem invalid_operation_request (env : StateEnv) (state : OperationState)
    (h : state.operation.sync = none) :
    syncAppState env state =
      ({ state with
          phase := .Failed
          message := "Invalid operation request: no operation specified" }, none)
    ∧ (syncAppState env state).1.syncResult = state.syncResult := by
  unfold syncAppState
  rw [h]
  exact ⟨rfl, rfl⟩

theorem invalid_operation_request_w :
    syncAppState ⟨fun _ _ => .error "x", none, fun p m r hk => (p, m, r, hk)⟩
        ⟨⟨none⟩, .Running, "msg", none⟩
      = (⟨⟨none⟩, .Failed, "Invalid operation request: no operation specified", none⟩, none)
    ∧ (syncAppState ⟨fun _ _ => .error "x", none, fun p m r hk => (p, m, r, hk)⟩
        ⟨⟨none⟩, .Running, "msg", none⟩).1.syncResult = none :=
  invalid_operation_request _ _ rfl

theorem syncAppState_operation (env : StateEnv) (state : OperationState) :
    (syncAppState env state).1.operation = state.operation := by
  unfold syncAppState
  split
  · rfl
  · dsimp only
    split
    · rfl
    · split
      · split <;> rfl
      · rfl

theorem syncAppState_revision_arg (env : StateEnv) (state : OperationState)
    (op : SyncOperation) (h : state.operation.sync = some op) :
    (syncAppState env state).2 =
      some (if (state.syncResult.getD ⟨"", [], []⟩).revision = ""
        then op.revision else (state.syncResult.getD ⟨"", [], []⟩).revision) := by
  unfold syncAppState
  rw [h]
  dsimp only
  split
  · rfl
  · split
    · split <;> rfl
    · rfl

theorem syncAppState_syncResult (env : StateEnv) (state : OperationState)
    (op : SyncOperation) (h : state.operation.sync = some op) :
    ∃ sr', (syncAppState env state).1.syncResult = some sr'
      ∧ (sr'.revision = (state.syncResult.getD ⟨"", [], []⟩).revision
         ∨ ∃ out, env.compare
             (if (state.syncResult.getD ⟨"", [], []⟩).revision = ""
              then op.revision else (state.syncResult.getD ⟨"", [], []⟩).revision)
             op.parameterOverrides = .ok out
           ∧ sr'.revision = out.revision) := by
  unfold syncAppState
  rw [h]
  dsimp only
  split
  · next e heq => exact ⟨_, rfl, Or.inl rfl⟩
  · next out heq =>
    split
    · split
      · exact ⟨_, rfl, Or.inr ⟨out, heq, rfl⟩⟩
      · exact ⟨_, rfl, Or.inr ⟨out, heq, rfl⟩⟩
    · exact ⟨_, rfl, Or.inl rfl⟩

/-- C1: resolved-revision write-once discipline of `SyncAppState`: starting
from an operation state with no recorded revision, once the first
invocation has recorded a non-empty resolved revision, a second invocation
passes exactly that pinned revision to the comparator and leaves it
unchanged. `stable` is the manifest-service contract (spec sections 4.3
and 6): resolving a revision the resolver itself returned yields the same
concrete revision. -/
theorem revision_write_once (env : StateEnv)
    (stable : ∀ r ov out, env.compare r ov = .ok out →
      ∀ out', env.compare out.revision ov = .ok out' → out'.revision = out.revision)
    (s0 : OperationState)
    (fresh : ∀ sr, s0.syncResult = some sr → sr.revision = "")
    (sr1 : SyncOperationResult)
    (h1 : (syncAppState env s0).1.syncResult = some sr1)
    (hne : sr1.revision ≠ "") :
    (syncAppState env (syncAppState env s0).1).2 = some sr1.revision
    ∧ ∀ sr2, (syncAppState env (syncAppState env s0).1).1.syncResult = some sr2 →
        sr2.revision = sr1.revision := by
  cases hsync : s0.operation.sync with
  | none =>
    exfalso
    have hkeep : (syncAppState env s0).1.syncResult = s0.syncResult := by
      unfold syncAppState
      rw [hsync]
    rw [h1] at hkeep
    exact hne (fresh sr1 hkeep.symm)
  | some op =>
    have hd : (s0.syncResult.getD ⟨"", [], []⟩).revision = "" := by
      cases hs : s0.syncResult with
      | none => simp
      | some s => simpa using fresh s hs
    obtain ⟨sr1', hsr1', hcase⟩ := syncAppState_syncResult env s0 op hsync
    rw [h1] at hsr1'
    injection hsr1' with he
    subst he
    rcases hcase with hrev | ⟨out, hcmp, hrev⟩
    · exact absurd (hrev.trans hd) hne
    · rw [if_pos hd] at hcmp
      have hop2 : (syncAppState env s0).1.operation.sync = some op := by
        rw [syncAppState_operation]; exact hsync
      have hgetD : ((syncAppState env s0).1.syncResult.getD ⟨"", [], []⟩) = sr1 := by
        rw [h1]; rfl
      have hif : (if ((syncAppState env s0).1.syncResult.getD ⟨"", [], []⟩).revision = ""
          then op.revision
          else ((syncAppState env s0).1.syncResult.getD ⟨"", [], []⟩).revision)
          = sr1.revision := by
        rw [hgetD, if_neg hne]
      constructor
      · rw [syncAppState_revision_arg env _ op hop2, hif]
      · intro sr2 h2
        obtain ⟨sr2', hsr2', hcase2⟩ := syncAppState_syncResult env _ op hop2
        rw [h2] at hsr2'
        injection hsr2' with he2
        subst he2
        rcases hcase2 with hrev2 | ⟨out2, hcmp2, hrev2⟩
        · rw [hrev2, hgetD]
        · rw [hif, hrev] at hcmp2
          have hsame := stable op.revision op.parameterOverrides out hcmp out2 hcmp2
          rw [hrev2, hsame, ← hrev]

theorem revision_write_once_w :
    (syncAppState
        ⟨fun _ _ => .ok ⟨"sha1", []⟩, none, fun _ _ rs hs => (.Succeeded, "synced", rs, hs)⟩
        (syncAppState
          ⟨fun _ _ => .ok ⟨"sha1", []⟩, none, fun _ _ rs hs => (.Succeeded, "synced", rs, hs)⟩
          ⟨⟨some ⟨"HEAD", false, false, []⟩⟩, .Running, "", none⟩).1).2 = some "sha1"
    ∧ ∀ sr2,
      (syncAppState
        ⟨fun _ _ => .ok ⟨"sha1", []⟩, none, fun _ _ rs hs => (.Succeeded, "synced", rs, hs)⟩
        (syncAppState
          ⟨fun _ _ => .ok ⟨"sha1", []⟩, none, fun _ _ rs hs => (.Succeeded, "synced", rs, hs)⟩
          ⟨⟨some ⟨"HEAD", false, false, []⟩⟩, .Running, "", none⟩).1).1.syncResult = some sr2 →
      sr2.revision = "sha1" :=
  revision_write_once
    ⟨fun _ _ => .ok ⟨"sha1", []⟩, none, fun _ _ rs hs => (.Succeeded, "synced", rs, hs)⟩
    (by
      intro r ov out h out' h'
      injection h with he
      injection h' with he'
      rw [← he, ← he'])
    ⟨⟨some ⟨"HEAD", false, false, []⟩⟩, .Running, "", none⟩
    (by intro sr h; exact Option.noConfusion h)
    ⟨"sha1", [], []⟩ rfl (by decide)

theorem setResourceDetails_self (rs : List ResourceDetails) (d : ResourceDetails) :
    d ∈ setResourceDetails rs d := by
  induction rs with
  | nil => simp [setResourceDetails]
  | cons r rest ih =>
    simp only [setResourceDetails]
    split
    · exact List.mem_cons_self d rest
    · exact List.mem_cons.mpr (Or.inr ih)

theorem mem_setResourceDetails_of_ne {x : ResourceDetails} {rs : List ResourceDetails}
    {d : ResourceDetails} (hx : x ∈ rs)
    (hne : ¬(x.kind = d.kind ∧ x.name = d.name)) : x ∈ setResourceDetails rs d := by
  induction rs with
  | nil => cases hx
  | cons r rest ih =>
    simp only [setResourceDetails]
    rcases List.mem_cons.mp hx with rfl | hx'
    · split
      · next hkey =>
        exact absurd ⟨by rw [hkey.1], by rw [hkey.2]⟩ hne
      · exact List.mem_cons_self x _
    · split
      · exact List.mem_cons.mpr (Or.inr hx')
      · exact List.mem_cons.mpr (Or.inr (ih hx'))

theorem hasFailedEntry_setResourceDetails {rs : List ResourceDetails} {k n : String}
    {d : ResourceDetails} (h : hasFailedEntry rs k n)
    (hd : d.status = .SyncFailed ∨ ¬(d.kind = k ∧ d.name = n)) :
    hasFailedEntry (setResourceDetails rs d) k n := by
  obtain ⟨rd, hrd, hk, hn, hs⟩ := h
  by_cases hkey : d.kind = k ∧ d.name = n
  · rcases hd with hd | hd
    · exact ⟨d, setResourceDetails_self rs d, hkey.1, hkey.2, hd⟩
    · exact absurd hkey hd
  · refine ⟨rd, mem_setResourceDetails_of_ne hrd ?_, hk, hn, hs⟩
    intro hcon
    exact hkey ⟨by rw [← hcon.1, hk], by rw [← hcon.2, hn]⟩

theorem hasFailedEntry_fold_preserve {k n : String} (f : KubeObject → ResourceDetails) :
    ∀ (gp : List KubeObject) (rs : List ResourceDetails),
      (∀ u ∈ gp, (f u).status = .SyncFailed ∨ ¬((f u).kind = k ∧ (f u).name = n)) →
      hasFailedEntry rs k n →
      hasFailedEntry (gp.foldl (fun acc u => setResourceDetails acc (f u)) rs) k n := by
  intro gp
  induction gp with
  | nil => intro rs _ h; exact h
  | cons g gs ih =>
    intro rs hf h
    simp only [List.foldl_cons]
    exact ih _ (fun u hu => hf u (List.mem_cons.mpr (Or.inr hu)))
      (hasFailedEntry_setResourceDetails h (hf g (List.mem_cons_self g gs)))

theorem hasFailedEntry_foldFail (f : KubeObject → ResourceDetails)
    (hf : ∀ u, (f u).kind = u.kind ∧ (f u).name = u.name ∧ (f u).status = .SyncFailed) :
    ∀ (gp : List KubeObject) (rs : List ResourceDetails) (t : KubeObject), t ∈ gp →
      hasFailedEntry (gp.foldl (fun acc u => setResourceDetails acc (f u)) rs)
        t.kind t.name := by
  intro gp
  induction gp with
  | nil => intro rs t ht; cases ht
  | cons g gs ih =>
    intro rs t ht
    simp only [List.foldl_cons]
    rcases List.mem_cons.mp ht with rfl | ht'
    · refine hasFailedEntry_fold_preserve f gs _ (fun u _ => Or.inl (hf u).2.2) ?_
      exact ⟨f t, setResourceDetails_self rs (f t), (hf t).1, (hf t).2.1, (hf t).2.2⟩
    · exact ih _ t ht'

/-- C9: discovery-error handling in a task group: when the lookup fails with
not-found during a dry-run and the desired create set contains a CRD of
the group's (group, kind), the group is skipped with no recording at all;
in every other discovery-error case, every task of the group gets a
`SyncFailed` entry and the sync is marked unsuccessful. -/
theorem discovery_error_handling (env : ApplyEnv) (ctx : SyncSettings)
    (allCreate : List KubeObject) (dryRun force update : Bool)
    (gp : List KubeObject) (gvkGroup gvkKind : String) (st : RDState) (e : DiscoError)
    (herr : env.serverResource gvkGroup gvkKind = .error e) :
    ((dryRun && e.notFound && hasCRDOfGroupKind allCreate gvkGroup gvkKind) = true →
      processCreateTasks env ctx allCreate dryRun force update gp gvkGroup gvkKind st = st)
    ∧ ((dryRun && e.notFound && hasCRDOfGroupKind allCreate gvkGroup gvkKind) = false →
      (processCreateTasks env ctx allCreate dryRun force update gp gvkGroup gvkKind st).2
        = false
      ∧ ∀ t ∈ gp,
          hasFailedEntry
            (processCreateTasks env ctx allCreate dryRun force update gp
              gvkGroup gvkKind st).1 t.kind t.name) := by
  unfold processCreateTasks
  rw [herr]
  dsimp only
  constructor
  · intro hc
    simp [hc]
  · intro hc
    rw [hc]
    simp only [Bool.false_eq_true, if_false]
    refine ⟨by trivial, fun t ht => ?_⟩
    exact hasFailedEntry_foldFail (failDetails ctx.ns e.msg)
      (fun u => ⟨rfl, rfl, rfl⟩) gp st.1 t ht

theorem discovery_error_handling_w :
    processCreateTasks
      ⟨fun _ _ => .error ⟨true, "the server could not find the requested resource"⟩,
        fun _ _ _ => true, fun _ _ _ => .ok "", fun _ => none⟩
      ⟨"default", false, "default"⟩
      [⟨"apiextensions.k8s.io", "CustomResourceDefinition", "foos.foo.io", "",
        true, some "foo.io", some "Foo", false⟩]
      true false false
      [⟨"foo.io", "Foo", "my-foo", "", false, none, none, false⟩]
      "foo.io" "Foo" ([], true)
      = ([], true) :=
  (discovery_error_handling _ _ _ _ _ _ _ _ _ _ _ rfl).1 (by decide)

theorem applyObject_fields (env : ApplyEnv) (ctx : SyncSettings) (t : KubeObject)
    (dryRun force : Bool) :
    (applyObject env ctx t dryRun force).kind = t.kind
    ∧ (applyObject env ctx t dryRun force).name = t.name := by
  unfold applyObject
  cases env.applyResult t dryRun force <;> exact ⟨rfl, rfl⟩

theorem applyFold_preserve (env : ApplyEnv) (ctx : SyncSettings)
    (dryRun force update : Bool) {k n : String} :
    ∀ (gp : List KubeObject) (st : RDState),
      (∀ u ∈ gp, ¬(u.kind = k ∧ u.name = n)) →
      hasFailedEntry st.1 k n → st.2 = false →
      hasFailedEntry ((gp.foldl (fun acc t => if t.hook then acc
        else recordResult update acc (applyObject env ctx t dryRun force)) st)).1 k n
      ∧ (gp.foldl (fun acc t => if t.hook then acc
        else recordResult update acc (applyObject env ctx t dryRun force)) st).2
          = false := by
  intro gp
  induction gp with
  | nil => exact fun st _ h1 h2 => ⟨h1, h2⟩
  | cons g gs ih =>
    intro st hk h1 h2
    simp only [List.foldl_cons]
    by_cases hg : g.hook = true
    · simp only [hg, if_true]
      exact ih st (fun u hu => hk u (List.mem_cons.mpr (Or.inr hu))) h1 h2
    · simp only [hg, if_false]
      refine ih _ (fun u hu => hk u (List.mem_cons.mpr (Or.inr hu))) ?_ ?_
      · unfold recordResult
        by_cases hc :
            (update || !(applyObject env ctx g dryRun force).status.Successful) = true
        · rw [if_pos hc]
          refine hasFailedEntry_setResourceDetails h1 (Or.inr ?_)
          intro hcon
          obtain ⟨hk', hn'⟩ := applyObject_fields env ctx g dryRun force
          exact hk g (List.mem_cons_self g gs) ⟨by rw [← hk']; exact hcon.1,
            by rw [← hn']; exact hcon.2⟩
        · rw [if_neg hc]
          exact h1
      · unfold recordResult
        simp [h2]

theorem processCreateTasks_preserve (env : ApplyEnv) (ctx : SyncSettings)
    (allCreate : List KubeObject) (dryRun force update : Bool)
    (gp : List KubeObject) (gvkGroup gvkKind : String) (st : RDState) {k n : String}
    (hk : ∀ u ∈ gp, ¬(u.kind = k ∧ u.name = n))
    (h1 : hasFailedEntry st.1 k n) (h2 : st.2 = false) :
    hasFailedEntry
      (processCreateTasks env ctx allCreate dryRun force update gp gvkGroup gvkKind st).1 k n
    ∧ (processCreateTasks env ctx allCreate dryRun force update gp gvkGroup gvkKind st).2
        = false := by
  unfold processCreateTasks
  cases hsr : env.serverResource gvkGroup gvkKind with
  | error e =>
    dsimp only
    split
    · exact ⟨h1, h2⟩
    · refine ⟨?_, by trivial⟩
      refine hasFailedEntry_fold_preserve (failDetails ctx.ns e.msg) gp st.1 ?_ h1
      intro u hu
      exact Or.inr (fun hcon => hk u hu hcon)
  | ok nsd =>
    dsimp only
    split
    · refine ⟨?_, by trivial⟩
      refine hasFailedEntry_fold_preserve _ gp st.1 ?_ h1
      intro u hu
      exact Or.inr (fun hcon => hk u hu hcon)
    · exact applyFold_preserve env ctx dryRun force update gp st hk h1 h2

theorem processCreateTasks_records (env : ApplyEnv) (ctx : SyncSettings)
    (allCreate : List KubeObject) (dryRun force update : Bool)
    (gp : List KubeObject) (o : KubeObject) (st : RDState)
    (ho : o ∈ gp) (hnd : gp.Nodup)
    (hkeys : ∀ u ∈ gp, u ≠ o → ¬(u.kind = o.kind ∧ u.name = o.name))
    (nsd : Bool) (hsr : env.serverResource o.apiGroup o.kind = .ok nsd)
    (hperm : env.isPermitted o.apiGroup o.kind nsd = true)
    (hhook : o.hook = false)
    (m : String) (happly : env.applyResult o dryRun force = .error m) :
    hasFailedEntry
      (processCreateTasks env ctx allCreate dryRun force update gp o.apiGroup o.kind st).1
      o.kind o.name
    ∧ (processCreateTasks env ctx allCreate dryRun force update gp
        o.apiGroup o.kind st).2 = false := by
  unfold processCreateTasks
  rw [hsr]
  dsimp only
  rw [hperm]
  simp only [Bool.not_true, Bool.false_eq_true, if_false]
  obtain ⟨l1, l2, rfl⟩ := List.append_of_mem ho
  have hol2 : o ∉ l2 := by
    have h := (List.nodup_cons.mp (hnd.of_append_right)).1
    exact h
  rw [List.foldl_append]
  simp only [List.foldl_cons]
  have hrd : applyObject env ctx o dryRun force = ⟨o.name, o.kind, ctx.ns, m, .SyncFailed⟩ := by
    unfold applyObject
    rw [happly]
  refine applyFold_preserve env ctx dryRun force update l2 _ ?_ ?_ ?_
  · intro u hu hcon
    have humem : u ∈ l1 ++ o :: l2 := by
      simp [hu]
    have hune : u ≠ o := fun he => hol2 (he ▸ hu)
    exact hkeys u humem hune hcon
  · simp only [hhook, Bool.false_eq_true, if_false, hrd]
    unfold recordResult
    dsimp only [ResourceStatus.Successful]
    simp only [Bool.not_false, Bool.or_true, if_true]
    exact ⟨_, setResourceDetails_self _ _, rfl, rfl, rfl⟩
  · simp only [hhook, Bool.false_eq_true, if_false, hrd]
    unfold recordResult
    dsimp only [ResourceStatus.Successful]
    simp

theorem applyLoop_flush (env : ApplyEnv) (ctx : SyncSettings)
    (creates : List KubeObject) (dryRun force update : Bool) (o : KubeObject)
    (nsd : Bool) (m : String)
    (hG : ∀ a ∈ creates, ∀ b ∈ creates, a.kind = b.kind → a.apiGroup = b.apiGroup)
    (hinj : ∀ a ∈ creates, ∀ b ∈ creates, a.kind = b.kind → a.name = b.name → a = b)
    (hnd : creates.Nodup) (hoc : o ∈ creates)
    (hsr : env.serverResource o.apiGroup o.kind = .ok nsd)
    (hperm : env.isPermitted o.apiGroup o.kind nsd = true)
    (hhook : o.hook = false)
    (happly : env.applyResult o dryRun force = .error m)
    (gp : List KubeObject) (g0 : KubeObject)
    (hg0 : g0 ∈ gp) (hsub : List.Sublist gp creates)
    (hknd : ∀ g ∈ gp, g.kind = g0.kind) (st : RDState)
    (hcase : o ∈ gp ∨ (hasFailedEntry st.1 o.kind o.name ∧ st.2 = false)) :
    hasFailedEntry
      (processCreateTasks env ctx creates dryRun force update gp
        g0.apiGroup g0.kind st).1 o.kind o.name
    ∧ (processCreateTasks env ctx creates dryRun force update gp
        g0.apiGroup g0.kind st).2 = false := by
  by_cases hogp : o ∈ gp
  · have hko : g0.kind = o.kind := (hknd o hogp).symm
    have hg0c : g0 ∈ creates := hsub.subset hg0
    have hgo : g0.apiGroup = o.apiGroup := hG g0 hg0c o hoc hko
    rw [hgo, hko]
    refine processCreateTasks_records env ctx creates dryRun force update gp o st hogp
      (List.Nodup.sublist hsub hnd) ?_ nsd hsr hperm hhook m happly
    intro u hu hne hcon
    exact hne (hinj u (hsub.subset hu) o hoc hcon.1 hcon.2)
  · rcases hcase with h | ⟨h1, h2⟩
    · exact absurd h hogp
    · refine processCreateTasks_preserve env ctx creates dryRun force update gp
        g0.apiGroup g0.kind st ?_ h1 h2
      intro u hu hcon
      exact hogp ((hinj u (hsub.subset hu) o hoc hcon.1 hcon.2) ▸ hu)

theorem applyLoop_records (env : ApplyEnv) (ctx : SyncSettings)
    (creates : List KubeObject) (dryRun force update : Bool) (o : KubeObject)
    (nsd : Bool) (m : String)
    (hG : ∀ a ∈ creates, ∀ b ∈ creates, a.kind = b.kind → a.apiGroup = b.apiGroup)
    (hinj : ∀ a ∈ creates, ∀ b ∈ creates, a.kind = b.kind → a.name = b.name → a = b)
    (hnd : creates.Nodup) (hoc : o ∈ creates)
    (hsr : env.serverResource o.apiGroup o.kind = .ok nsd)
    (hperm : env.isPermitted o.apiGroup o.kind nsd = true)
    (hhook : o.hook = false)
    (happly : env.applyResult o dryRun force = .error m) :
    ∀ (rest gp : List KubeObject) (st : RDState),
      List.Sublist (gp ++ rest) creates →
      (∀ g0, gp.head? = some g0 → ∀ g ∈ gp, g.kind = g0.kind) →
      (o ∈ gp ∨ o ∈ rest ∨ (hasFailedEntry st.1 o.kind o.name ∧ st.2 = false)) →
      hasFailedEntry
        (applyLoop env ctx creates dryRun force update gp rest st).1 o.kind o.name
      ∧ (applyLoop env ctx creates dryRun force update gp rest st).2 = false := by
  intro rest
  induction rest with
  | nil =>
    intro gp st hsub hhead hdisj
    unfold applyLoop
    cases hgp : gp with
    | nil =>
      subst hgp
      rcases hdisj with h | h | h
      · cases h
      · cases h
      · exact h
    | cons g0 gs =>
      subst hgp
      dsimp only
      refine applyLoop_flush env ctx creates dryRun force update o nsd m hG hinj hnd hoc
        hsr hperm hhook happly (g0 :: gs) g0 (List.mem_cons_self g0 gs) ?_
        (fun g hg => hhead g0 rfl g hg) st ?_
      · rw [List.append_nil] at hsub
        exact hsub
      · rcases hdisj with h | h | h
        · exact Or.inl h
        · cases h
        · exact Or.inr h
  | cons t rest' ih =>
    intro gp st hsub hhead hdisj
    unfold applyLoop
    cases hgp : gp with
    | nil =>
      subst hgp
      dsimp only
      refine ih [t] st ?_ ?_ ?_
      · simpa using hsub
      · intro g0 hg0 g hg
        simp only [List.head?_cons, Option.some.injEq] at hg0
        simp only [List.mem_singleton] at hg
        rw [hg, hg0]
      · rcases hdisj with h | h | h
        · cases h
        · rcases List.mem_cons.mp h with rfl | h'
          · exact Or.inl (List.mem_singleton.mpr rfl)
          · exact Or.inr (Or.inl h')
        · exact Or.inr (Or.inr h)
    | cons g0 gs =>
      subst hgp
      dsimp only
      have hsubgrp : List.Sublist (g0 :: gs) creates :=
        (List.sublist_append_left (g0 :: gs) (t :: rest')).trans hsub
      by_cases hkt : g0.kind ≠ t.kind
      · rw [if_pos hkt]
        have hsubt : List.Sublist ([t] ++ rest') creates := by
          refine List.Sublist.trans ?_ hsub
          simp
        have hheadt : ∀ gh, ([t] : List KubeObject).head? = some gh →
            ∀ g ∈ ([t] : List KubeObject), g.kind = gh.kind := by
          intro gh hgh g hg
          simp only [List.head?_cons, Option.some.injEq] at hgh
          simp only [List.mem_singleton] at hg
          rw [hg, hgh]
        by_cases hogp : o ∈ g0 :: gs
        · refine ih [t] _ hsubt hheadt (Or.inr (Or.inr ?_))
          exact applyLoop_flush env ctx creates dryRun force update o nsd m hG hinj hnd
            hoc hsr hperm hhook happly (g0 :: gs) g0 (List.mem_cons_self g0 gs)
            hsubgrp (fun g hg => hhead g0 rfl g hg) st (Or.inl hogp)
        · rcases hdisj with h | h | h
          · exact absurd h hogp
          · rcases List.mem_cons.mp h with rfl | h'
            · exact ih [o] _ hsubt hheadt (Or.inl (List.mem_singleton.mpr rfl))
            · exact ih [t] _ hsubt hheadt (Or.inr (Or.inl h'))
          · refine ih [t] _ hsubt hheadt (Or.inr (Or.inr ?_))
            exact applyLoop_flush env ctx creates dryRun force update o nsd m hG hinj hnd
              hoc hsr hperm hhook happly (g0 :: gs) g0 (List.mem_cons_self g0 gs)
              hsubgrp (fun g hg => hhead g0 rfl g hg) st (Or.inr h)
      · rw [if_neg hkt]
        have hkeq : g0.kind = t.kind := not_not.mp hkt
        refine ih (g0 :: gs ++ [t]) st ?_ ?_ ?_
        · have heq2 : (g0 :: gs ++ [t]) ++ rest' = (g0 :: gs) ++ (t :: rest') := by
            simp
          rw [heq2]
          exact hsub
        · intro gh hgh g hg
          have hgh' : g0 = gh := by simpa using hgh
          subst hgh'
          rcases List.mem_cons.mp hg with rfl | hg2
          · rfl
          · rcases List.mem_append.mp hg2 with hg' | hg'
            · exact hhead g0 rfl g (List.mem_cons.mpr (Or.inr hg'))
            · rw [List.mem_singleton.mp hg', ← hkeq]
        · rcases hdisj with h | h | h
          · refine Or.inl ?_
            rcases List.mem_cons.mp h with rfl | h'
            · exact List.mem_cons_self _ _
            · exact List.mem_cons.mpr (Or.inr (List.mem_append.mpr (Or.inl h')))
          · rcases List.mem_cons.mp h with rfl | h'
            · exact Or.inl (by simp)
            · exact Or.inr (Or.inl h')
          · exact Or.inr (Or.inr h)

/-- C8: `doApplySync` never short-circuits: a create task whose apply is
rejected gets a `SyncFailed` entry in the result, and the returned flag is
false, no matter which other groups failed before or after it — the engine
accumulates failures across the whole plan. The task set is assumed
key-consistent: (kind, name) pairs of create tasks are distinct, and tasks
of one kind share one API group (the group's GVK is taken from its first
task). -/
theorem doApplySync_accumulates (env : ApplyEnv) (ctx : SyncSettings)
    (tasks : List syncTask) (dryRun force update : Bool)
    (res0 : List ResourceDetails) (o : KubeObject)
    (hkeys : ((tasks.filterMap (fun t => t.targetObj)).map
      (fun u => (u.kind, u.name))).Nodup)
    (hG : ∀ a ∈ tasks.filterMap (fun t => t.targetObj),
      ∀ b ∈ tasks.filterMap (fun t => t.targetObj),
        a.kind = b.kind → a.apiGroup = b.apiGroup)
    (ho : o ∈ tasks.filterMap (fun t => t.targetObj))
    (hhook : o.hook = false)
    (nsd : Bool) (hsr : env.serverResource o.apiGroup o.kind = .ok nsd)
    (hperm : env.isPermitted o.apiGroup o.kind nsd = true)
    (m : String) (happly : env.applyResult o dryRun force = .error m) :
    hasFailedEntry (doApplySync env ctx tasks dryRun force update res0).1 o.kind o.name
    ∧ (doApplySync env ctx tasks dryRun force update res0).2 = false := by
  have hnd : (tasks.filterMap (fun t => t.targetObj)).Nodup :=
    List.Nodup.of_map _ hkeys
  have hinj : ∀ a ∈ tasks.filterMap (fun t => t.targetObj),
      ∀ b ∈ tasks.filterMap (fun t => t.targetObj),
        a.kind = b.kind → a.name = b.name → a = b := by
    intro a ha b hb h1 h2
    exact List.inj_on_of_nodup_map hkeys ha hb (by rw [h1, h2])
  unfold doApplySync
  refine applyLoop_records env ctx _ dryRun force update o nsd m hG hinj hnd ho
    hsr hperm hhook happly _ [] _ ?_ ?_ ?_
  · simp
  · intro g0 hg0
    cases hg0
  · exact Or.inr (Or.inl ho)

theorem doApplySync_accumulates_w :
    hasFailedEntry
      (doApplySync
        ⟨fun _ _ => .ok true, fun _ _ _ => true,
          fun ob _ _ => .error ("error validating data: " ++ ob.name), fun _ => none⟩
        ⟨"default", false, "default"⟩
        [⟨none, some ⟨"", "ConfigMap", "cm1", "", false, none, none, false⟩⟩,
         ⟨none, some ⟨"", "Service", "svc1", "", false, none, none, false⟩⟩]
        true false false []).1 "Service" "svc1"
    ∧ (doApplySync
        ⟨fun _ _ => .ok true, fun _ _ _ => true,
          fun ob _ _ => .error ("error validating data: " ++ ob.name), fun _ => none⟩
        ⟨"default", false, "default"⟩
        [⟨none, some ⟨"", "ConfigMap", "cm1", "", false, none, none, false⟩⟩,
         ⟨none, some ⟨"", "Service", "svc1", "", false, none, none, false⟩⟩]
        true false false []).2 = false :=
  doApplySync_accumulates
    ⟨fun _ _ => .ok true, fun _ _ _ => true,
      fun ob _ _ => .error ("error validating data: " ++ ob.name), fun _ => none⟩
    ⟨"default", false, "default"⟩
    [⟨none, some ⟨"", "ConfigMap", "cm1", "", false, none, none, false⟩⟩,
     ⟨none, some ⟨"", "Service", "svc1", "", false, none, none, false⟩⟩]
    true false false []
    ⟨"", "Service", "svc1", "", false, none, none, false⟩
    (by decide) (by decide) (by decide) rfl true rfl rfl
    "error validating data: svc1" rfl

end ArgoCD
